import Mathlib

set_option maxRecDepth 4000

/-!
Shallow embedding of `src/whoop_mcp/client.py` (WhoopClient): OAuth token
refresh, authenticated requests with 401-retry, and cursor pagination.

Modelling conventions:
* Python `Optional[str]` (and `os.getenv`) becomes `Option String`; Python
  truthiness of an optional string (`if not x:`) is `truthyOptStr`.
* Wall-clock time (`datetime.now()`) is an integer number of seconds carried
  in the world state; `timedelta(minutes=55)` is `55 * 60` seconds.
* The HTTP layer is an oracle: the n-th POST to the token endpoint gets
  response `tok n`; the n-th API request gets response `api n call`, where
  `call` records the bearer token and parameters actually sent (so a mock
  upstream can respond to what was requested).
* Module-global state (`_last_token_refresh`, `os.environ`, the `.env` file)
  lives in `World`; instance state (`self.*`) lives in `Client`.
* Exceptions become `Except WhoopError`; the source defines exactly two
  exception classes, `WhoopAuthError` and `WhoopAPIError`.
-/

/-- Decidable equality for `Except`, so that runs of the model can be
compared by `decide`. -/
def exceptDecEq {ε α : Type} [DecidableEq ε] [DecidableEq α] :
    (a b : Except ε α) → Decidable (a = b)
  | .error e, .error f =>
    if h : e = f then .isTrue (by rw [h]) else .isFalse (by simp [h])
  | .error _, .ok _ => .isFalse (by simp)
  | .ok _, .error _ => .isFalse (by simp)
  | .ok x, .ok y =>
    if h : x = y then .isTrue (by rw [h]) else .isFalse (by simp [h])

instance {ε α : Type} [DecidableEq ε] [DecidableEq α] : DecidableEq (Except ε α) :=
  exceptDecEq

namespace WhoopMCP

/-- The two exception classes of `client.py`: `WhoopAuthError` and
`WhoopAPIError`. There is no separate rate-limit exception class in the
source. -/
inductive WhoopError where
  | authError (msg : String)
  | apiError (msg : String)
  deriving Repr, DecidableEq

/-- `True` on the `WhoopAPIError` constructor. -/
def WhoopError.isApiError : WhoopError → Bool
  | .apiError _ => true
  | .authError _ => false

/-- `True` on the `WhoopAuthError` constructor. -/
def WhoopError.isAuthError : WhoopError → Bool
  | .authError _ => true
  | .apiError _ => false

/-- Python truthiness of an `Optional[str]`: `None` and `""` are falsy. -/
def truthyOptStr : Option String → Bool
  | none => false
  | some s => !s.isEmpty

/-- Response of the upstream OAuth token endpoint to one refresh exchange.
`refresh_token := none` models a JSON body without a `refresh_token` key. -/
structure TokenResponse where
  status : Nat
  text : String
  access_token : String
  refresh_token : Option String
  deriving Repr, DecidableEq

/-- Parameters sent with an API request: `{"limit": page_limit}` plus an
optional `"nextToken"`, as built by `_paginated_request`; `none` models
`params=None`. -/
structure Params where
  limit : Option Nat
  nextToken : Option String
  deriving Repr, DecidableEq

/-- Parsed JSON body of an API response, to the extent the client reads it:
`data.get("records", [])` and `data.get("next_token")`. Records are opaque
(numbered). -/
structure Body where
  records : List Nat
  next_token : Option String
  deriving Repr, DecidableEq

/-- Response of an upstream resource endpoint to one API request. -/
structure ApiResponse where
  status : Nat
  text : String
  body : Body
  deriving Repr, DecidableEq

/-- Trace record of one API request actually sent: the bearer token used
(`self.access_token` at send time), the method, the endpoint, the params, and
how many token-endpoint exchanges had completed when it was sent. -/
structure ApiCall where
  token : Option String
  method : String
  endpoint : String
  params : Option Params
  tokenCallsAtSend : Nat
  deriving Repr, DecidableEq

/-- Process environment (`os.environ` / `os.getenv`), restricted to the four
keys the client reads. -/
structure Env where
  whoop_client_id : Option String
  whoop_client_secret : Option String
  whoop_access_token : Option String
  whoop_refresh_token : Option String
  deriving Repr, DecidableEq

/-- The `.env` file written through `set_key`, restricted to the two keys the
client writes. -/
structure DotEnv where
  whoop_access_token : Option String
  whoop_refresh_token : Option String
  deriving Repr, DecidableEq

/-- Instance state of a `WhoopClient` (`self.client_id`, `self.client_secret`,
`self.access_token`, `self.refresh_token`). -/
structure Client where
  client_id : Option String
  client_secret : Option String
  access_token : Option String
  refresh_token : Option String
  deriving Repr, DecidableEq

/-- Process-global state: the module-level `_last_token_refresh`, `os.environ`,
the `.env` file, the current wall-clock time in seconds, and the interaction
trace (number of token-endpoint exchanges, list of API requests sent). -/
structure World where
  lastRefresh : Option Int
  env : Env
  dotenv : DotEnv
  now : Int
  tokenCalls : Nat
  apiCalls : List ApiCall
  deriving Repr, DecidableEq

/-- `TOKEN_LIFETIME_MINUTES = 55` from `client.py`. -/
def TOKEN_LIFETIME_MINUTES : Int := 55

/-- `WhoopClient.__init__`: read the four values from the environment and fail
with `WhoopAuthError` when the access token is missing or empty. -/
def whoopClientInit (env : Env) : Except WhoopError Client :=
  let c : Client :=
    { client_id := env.whoop_client_id
      client_secret := env.whoop_client_secret
      access_token := env.whoop_access_token
      refresh_token := env.whoop_refresh_token }
  if !truthyOptStr c.access_token then
    .error (.authError
      "No access token found. Run 'uv run python scripts/get_tokens.py' first.")
  else
    .ok c

/-- `WhoopClient._token_needs_refresh`: stale when never refreshed this
session, or when strictly more than 55 minutes have elapsed. -/
def tokenNeedsRefresh (lastRefresh : Option Int) (now : Int) : Bool :=
  match lastRefresh with
  | none => true
  | some t => decide (now - t > TOKEN_LIFETIME_MINUTES * 60)

/-- `tokens.get("refresh_token", self.refresh_token)` from
`_refresh_access_token`: the upstream value replaces the stored refresh
token only when the response carries the key. -/
def rotatedRefreshToken (resp : TokenResponse) (old : Option String) : Option String :=
  match resp.refresh_token with
  | some r => some r
  | none => old

/-- `WhoopClient._refresh_access_token`: POST to the token endpoint (the
`tok` oracle gives the response to the n-th exchange), fail with
`WhoopAuthError` when there is no refresh token or the exchange is rejected;
on success update `self.access_token`, rotate `self.refresh_token` only when
the response carries one, record `_last_token_refresh`, write the `.env`
file via `set_key` (the refresh-token key only when the response carries a
truthy one), and update `os.environ` with both current tokens. The updated
`Client` and `World` are returned alongside the outcome because, as in the
source, side effects performed before an exception persist. -/
def refreshAccessToken (tok : Nat → TokenResponse) (c : Client) (w : World) :
    Except WhoopError Unit × Client × World :=
  if !truthyOptStr c.refresh_token then
    (.error (.authError "No refresh token available. Re-run get_tokens.py"), c, w)
  else
    let resp := tok w.tokenCalls
    let w1 := { w with tokenCalls := w.tokenCalls + 1 }
    if resp.status ≠ 200 then
      (.error (.authError ("Token refresh failed: " ++ resp.text)), c, w1)
    else
      let newRefresh : Option String := rotatedRefreshToken resp c.refresh_token
      let c' : Client :=
        { c with access_token := some resp.access_token
                 refresh_token := newRefresh }
      let dotenv' : DotEnv :=
        { whoop_access_token := c'.access_token
          whoop_refresh_token :=
            if truthyOptStr resp.refresh_token then c'.refresh_token
            else w1.dotenv.whoop_refresh_token }
      let env' : Env :=
        { w1.env with whoop_access_token := c'.access_token
                      whoop_refresh_token := c'.refresh_token }
      (.ok (), c', { w1 with lastRefresh := some w1.now
                             dotenv := dotenv'
                             env := env' })

/-- `WhoopClient._request`, with the `retry_on_401` flag encoded as the
number of 401-retries still allowed (`True` is `1`, `False` is `0`) so that
the self-recursion of the source is structural: proactive refresh when
stale, send with the current bearer token, on a 401 with a retry left
refresh once and recurse with no retry left, map 429 and other non-200
statuses to `WhoopAPIError`, return the parsed body on 200. The `Client`
and `World` are returned in every outcome, error included, because side
effects made before an exception persist in the source. -/
def requestAux (tok : Nat → TokenResponse) (api : Nat → ApiCall → ApiResponse)
    (method endpoint : String) (params : Option Params) :
    Nat → Client → World → Except WhoopError Body × Client × World
  | retriesLeft, c, w =>
    let proactive : Except WhoopError Unit × Client × World :=
      if tokenNeedsRefresh w.lastRefresh w.now then refreshAccessToken tok c w
      else (.ok (), c, w)
    match proactive with
    | (.error e, c1, w1) => (.error e, c1, w1)
    | (.ok (), c1, w1) =>
      let call : ApiCall :=
        { token := c1.access_token
          method := method
          endpoint := endpoint
          params := params
          tokenCallsAtSend := w1.tokenCalls }
      let resp := api w1.apiCalls.length call
      let w2 := { w1 with apiCalls := w1.apiCalls ++ [call] }
      let fallthrough : Except WhoopError Body × Client × World :=
        if resp.status = 429 then
          (.error (.apiError "Rate limit exceeded. Try again later."), c1, w2)
        else if resp.status ≠ 200 then
          (.error (.apiError ("API error " ++ toString resp.status ++ ": " ++ resp.text)),
           c1, w2)
        else
          (.ok resp.body, c1, w2)
      match retriesLeft with
      | r + 1 =>
        if resp.status = 401 then
          match refreshAccessToken tok c1 w2 with
          | (.error e, c2, w3) => (.error e, c2, w3)
          | (.ok (), c2, w3) => requestAux tok api method endpoint params r c2 w3
        else fallthrough
      | 0 => fallthrough

/-- `WhoopClient._request` with its `retry_on_401 : bool` interface
(`_request` is always entered with `retry_on_401=True` from the public
methods; the one recursive call passes `retry_on_401=False`). -/
def request (tok : Nat → TokenResponse) (api : Nat → ApiCall → ApiResponse)
    (method endpoint : String) (params : Option Params) (retry_on_401 : Bool)
    (c : Client) (w : World) : Except WhoopError Body × Client × World :=
  requestAux tok api method endpoint params (if retry_on_401 then 1 else 0) c w

/-- Loop body of `WhoopClient._paginated_request`, with explicit fuel: `none`
means the fuel ran out before the loop terminated (never the case with
enough fuel, see the termination theorem). Mirrors the `while` loop: request
`min(max_per_page, limit - len(all_records))` records, pass `nextToken` only
when truthy, extend the accumulator, and break when the next cursor is falsy
or the page was empty; the result is `all_records[:limit]`. -/
def paginatedLoop (tok : Nat → TokenResponse) (api : Nat → ApiCall → ApiResponse)
    (endpoint : String) (lim maxPerPage : Nat) (fuel : Nat)
    (acc : List Nat) (nextTok : Option String) (c : Client) (w : World) :
    Option (Except WhoopError (List Nat) × Client × World) :=
  match fuel with
  | 0 => none
  | fuel + 1 =>
    if acc.length < lim then
      let pageLimit := min maxPerPage (lim - acc.length)
      let params : Params :=
        { limit := some pageLimit
          nextToken := if truthyOptStr nextTok then nextTok else none }
      match request tok api "GET" endpoint (some params) true c w with
      | (.error e, c1, w1) => some (.error e, c1, w1)
      | (.ok data, c1, w1) =>
        let records := data.records
        let acc' := acc ++ records
        let nextTok' := data.next_token
        if !truthyOptStr nextTok' || records.isEmpty then
          some (.ok (acc'.take lim), c1, w1)
        else
          paginatedLoop tok api endpoint lim maxPerPage fuel acc' nextTok' c1 w1
    else
      some (.ok (acc.take lim), c, w)

/-- `WhoopClient._paginated_request` (default `max_per_page` is 25 at call
sites): run the loop from an empty accumulator and no cursor. The fuel
`lim + 1` suffices for every oracle (proved below), so the `Option` never
comes out `none`. -/
def paginatedRequest (tok : Nat → TokenResponse) (api : Nat → ApiCall → ApiResponse)
    (endpoint : String) (lim maxPerPage : Nat) (c : Client) (w : World) :
    Option (Except WhoopError (List Nat) × Client × World) :=
  paginatedLoop tok api endpoint lim maxPerPage (lim + 1) [] none c w

/-!
Cooperative-concurrency model for several in-flight `_request` calls sharing
one client instance (the source runs them with `asyncio.gather` on one event
loop). Each task executes the synchronous segments of `_request` atomically
and suspends at the `await` points of the source:

* `entry` → the task runs `_token_needs_refresh()`; when stale it enters
  `_refresh_access_token`, checks `self.refresh_token`, issues the POST to
  the token endpoint and suspends awaiting its response (`awaitingToken`,
  remembering which exchange it issued); when fresh it builds the
  `Authorization` header from the shared `self.access_token`, issues the API
  request and suspends (`awaitingApi`).
* `awaitingToken` → the token response arrives: a non-200 raises
  (`failedTask`); otherwise the task writes the shared `self.access_token`
  and `self.refresh_token`, sets the global `_last_token_refresh`, then
  issues its API request with the token it just wrote and suspends.
* `awaitingApi` → the API response arrives and the task completes (its
  handling is irrelevant to counting refresh exchanges).

There is no lock anywhere in the source, so nothing prevents two tasks from
both being in `awaitingToken`.
-/

/-- Progress of one concurrent `_request` task. -/
inductive TaskPhase where
  | entry
  | awaitingToken (idx : Nat)
  | awaitingApi
  | failedTask
  | finished
  deriving Repr, DecidableEq

/-- Shared state of the concurrency model: the one shared client instance,
the module-global `_last_token_refresh`, the clock, the count of refresh
exchanges issued to the token endpoint, the bearer tokens of the API
requests issued, and each task's phase. -/
structure ConcState where
  client : Client
  lastRefresh : Option Int
  now : Int
  tokenCalls : Nat
  apiTokens : List (Option String)
  tasks : List TaskPhase
  deriving Repr, DecidableEq

/-- Run one atomic segment of task `i` (no-op when `i` is out of range or the
task is done). -/
def concStep (tok : Nat → TokenResponse) (st : ConcState) (i : Nat) : ConcState :=
  match st.tasks[i]? with
  | none => st
  | some ph =>
    match ph with
    | .entry =>
      if tokenNeedsRefresh st.lastRefresh st.now then
        if !truthyOptStr st.client.refresh_token then
          { st with tasks := st.tasks.set i .failedTask }
        else
          { st with tokenCalls := st.tokenCalls + 1
                    tasks := st.tasks.set i (.awaitingToken st.tokenCalls) }
      else
        { st with apiTokens := st.apiTokens ++ [st.client.access_token]
                  tasks := st.tasks.set i .awaitingApi }
    | .awaitingToken idx =>
      let resp := tok idx
      if resp.status ≠ 200 then
        { st with tasks := st.tasks.set i .failedTask }
      else
        let newRefresh : Option String :=
          rotatedRefreshToken resp st.client.refresh_token
        let c' : Client :=
          { st.client with access_token := some resp.access_token
                           refresh_token := newRefresh }
        { st with client := c'
                  lastRefresh := some st.now
                  apiTokens := st.apiTokens ++ [c'.access_token]
                  tasks := st.tasks.set i .awaitingApi }
    | .awaitingApi => { st with tasks := st.tasks.set i .finished }
    | .failedTask => st
    | .finished => st

/-- Run a schedule: a list of task indices, executed left to right. -/
def concRun (tok : Nat → TokenResponse) (st : ConcState) (sched : List Nat) :
    ConcState :=
  sched.foldl (concStep tok) st

/-! Concrete oracles and states used to instantiate the theorems. -/

/-- Token endpoint that accepts every exchange; the n-th exchange returns
access token `T<n>` and refresh token `U<n>`. -/
def tokOK : Nat → TokenResponse := fun n =>
  { status := 200, text := "", access_token := "T" ++ Nat.repr n
    refresh_token := some ("U" ++ Nat.repr n) }

/-- Token endpoint whose responses omit the `refresh_token` key. -/
def tokNoRotate : Nat → TokenResponse := fun n =>
  { status := 200, text := "", access_token := "T" ++ Nat.repr n
    refresh_token := none }

/-- Upstream that answers 401 to every API request. -/
def apiAll401 : Nat → ApiCall → ApiResponse := fun _ _ =>
  { status := 401, text := "unauthorized", body := { records := [], next_token := none } }

/-- Upstream that answers 401 to the first API request and 200 afterwards. -/
def api401then200 : Nat → ApiCall → ApiResponse := fun n _ =>
  if n = 0 then
    { status := 401, text := "unauthorized", body := { records := [], next_token := none } }
  else
    { status := 200, text := "ok", body := { records := [7], next_token := none } }

/-- Upstream that answers 429 to every API request. -/
def api429 : Nat → ApiCall → ApiResponse := fun _ _ =>
  { status := 429, text := "Too Many Requests", body := { records := [], next_token := none } }

/-- Upstream that answers 200 to every API request. -/
def api200 : Nat → ApiCall → ApiResponse := fun _ _ =>
  { status := 200, text := "ok", body := { records := [1, 2, 3], next_token := none } }

/-- Mock upstream that fills every requested page: the n-th API request gets
exactly the number of records it asked for (record `100 * n + j` for the
j-th record of page n) and a non-null cursor. -/
def apiFull : Nat → ApiCall → ApiResponse := fun n call =>
  let l : Nat := match call.params with
    | some p => p.limit.getD 0
    | none => 0
  { status := 200, text := "ok"
    body := { records := (List.range l).map (fun j => 100 * n + j)
              next_token := some ("c" ++ Nat.repr n) } }

/-- Mock upstream whose first page is full with a non-null cursor and whose
second page has zero records together with a non-null cursor. -/
def apiEmptySecondPage : Nat → ApiCall → ApiResponse := fun n call =>
  let l : Nat := match call.params with
    | some p => p.limit.getD 0
    | none => 0
  if n = 0 then
    { status := 200, text := "ok"
      body := { records := (List.range l).map (fun j => j)
                next_token := some "c0" } }
  else
    { status := 200, text := "ok"
      body := { records := [], next_token := some "c1" } }

/-- A client holding credentials and both tokens. -/
def cInit : Client :=
  { client_id := some "id", client_secret := some "secret"
    access_token := some "A", refresh_token := some "R" }

/-- Environment matching `cInit`. -/
def envInit : Env :=
  { whoop_client_id := some "id", whoop_client_secret := some "secret"
    whoop_access_token := some "A", whoop_refresh_token := some "R" }

/-- Environment with no access token. -/
def envNoAccess : Env :=
  { whoop_client_id := some "id", whoop_client_secret := some "secret"
    whoop_access_token := none, whoop_refresh_token := some "R" }

/-- World at time 0 in which the token was never refreshed this session. -/
def wStale : World :=
  { lastRefresh := none
    env := envInit
    dotenv := { whoop_access_token := some "A", whoop_refresh_token := some "R" }
    now := 0, tokenCalls := 0, apiCalls := [] }

/-- World in which the token was refreshed just now. -/
def wFresh : World := { wStale with lastRefresh := some 0 }

/-- Two concurrent tasks at entry sharing one client whose token was never
refreshed this session. -/
def concInit2 : ConcState :=
  { client := cInit, lastRefresh := none, now := 0
    tokenCalls := 0, apiTokens := [], tasks := [.entry, .entry] }

/-- A schedule in which each of `m` tasks, starting at task `start`, runs its
next two segments back to back. -/
def pairSched (start m : Nat) : List Nat :=
  (List.range' start m).flatMap (fun j => [j, j])

/-- `K` concurrent requests at entry sharing one client, with the module
global `_last_token_refresh` at `lr`, wall clock at `now`, and `n0` refresh
exchanges already performed. -/
def concInitK (K : Nat) (c : Client) (lr : Option Int) (now : Int) (n0 : Nat) : ConcState :=
  { client := c, lastRefresh := lr, now := now, tokenCalls := n0
    apiTokens := [], tasks := List.replicate K .entry }

/-- The interleaved schedule: every task runs its staleness check before any
refresh-exchange response is consumed, then each completes. -/
def c1Interleaved (K : Nat) : List Nat := List.range K ++ pairSched 0 K

/-- The sequential schedule: task 0 runs to completion first, then each later
task runs to completion. -/
def c1Sequential (K : Nat) : List Nat := [0, 0, 0] ++ pairSched 1 (K - 1)

/-- Client state after one successful refresh whose response is `resp`
(derived abbreviation for stating theorems). -/
def refreshedClient (resp : TokenResponse) (c : Client) : Client :=
  { c with access_token := some resp.access_token
           refresh_token := rotatedRefreshToken resp c.refresh_token }

/-- World state after one successful refresh whose response is `resp`
(derived abbreviation for stating theorems). -/
def refreshedWorld (resp : TokenResponse) (c : Client) (w : World) : World :=
  { w with tokenCalls := w.tokenCalls + 1
           lastRefresh := some w.now
           dotenv :=
             { whoop_access_token := some resp.access_token
               whoop_refresh_token :=
                 if truthyOptStr resp.refresh_token then
                   rotatedRefreshToken resp c.refresh_token
                 else w.dotenv.whoop_refresh_token }
           env :=
             { w.env with
                 whoop_access_token := some resp.access_token
                 whoop_refresh_token := rotatedRefreshToken resp c.refresh_token } }

/-- Client state after `m` successive successful refreshes whose responses
are exchanges `base, base+1, ...` (derived abbreviation for stating
theorems). -/
def refreshFold (tok : Nat → TokenResponse) (base m : Nat) (c : Client) : Client :=
  (List.range m).foldl (fun c i => refreshedClient (tok (base + i)) c) c

/-! Helper lemmas about the refresh path. -/

theorem tokenNeedsRefresh_some_self (t : Int) : tokenNeedsRefresh (some t) t = false := by
  simp [tokenNeedsRefresh, TOKEN_LIFETIME_MINUTES]

theorem refreshAccessToken_apiCalls (tok : Nat → TokenResponse) (c : Client) (w : World) :
    ((refreshAccessToken tok c w).2.2).apiCalls = w.apiCalls := by
  simp only [refreshAccessToken]
  split
  · rfl
  · split
    · rfl
    · rfl

theorem refreshAccessToken_now (tok : Nat → TokenResponse) (c : Client) (w : World) :
    ((refreshAccessToken tok c w).2.2).now = w.now := by
  simp only [refreshAccessToken]
  split
  · rfl
  · split
    · rfl
    · rfl

/-- A refresh with a refresh token at hand and an accepting upstream succeeds
and produces exactly the refreshed client and world. -/
theorem refreshAccessToken_ok (tok : Nat → TokenResponse) (c : Client) (w : World)
    (hrt : truthyOptStr c.refresh_token = true)
    (h200 : (tok w.tokenCalls).status = 200) :
    refreshAccessToken tok c w =
      (.ok (), refreshedClient (tok w.tokenCalls) c, refreshedWorld (tok w.tokenCalls) c w) := by
  simp only [refreshAccessToken, hrt, h200, Bool.not_true, refreshedClient, refreshedWorld]
  simp

/-- Every run of `_request` only appends to the trace of issued API calls:
the calls already recorded stay in place. -/
theorem requestAux_apiCalls_extends (tok : Nat → TokenResponse)
    (api : Nat → ApiCall → ApiResponse) (m e : String) (p : Option Params) :
    ∀ (rl : Nat) (c : Client) (w : World),
      ∃ l, ((requestAux tok api m e p rl c w).2.2).apiCalls = w.apiCalls ++ l := by
  intro rl
  induction rl with
  | zero =>
    intro c w
    by_cases hs : tokenNeedsRefresh w.lastRefresh w.now = true
    · rcases hR : refreshAccessToken tok c w with ⟨res, c1, w1⟩
      have hcalls : w1.apiCalls = w.apiCalls := by
        rw [← refreshAccessToken_apiCalls tok c w, hR]
      cases res with
      | error err =>
        refine ⟨[], ?_⟩
        simp only [requestAux]
        rw [if_pos hs, hR]
        simp [hcalls]
      | ok u =>
        cases u
        refine ⟨[⟨c1.access_token, m, e, p, w1.tokenCalls⟩], ?_⟩
        simp only [requestAux]
        rw [if_pos hs, hR]
        split <;> (try split) <;> (try split) <;> simp_all
    · refine ⟨[⟨c.access_token, m, e, p, w.tokenCalls⟩], ?_⟩
      simp only [requestAux]
      rw [if_neg hs]
      split <;> (try split) <;> (try split) <;> simp_all
  | succ r ih =>
    intro c w
    by_cases hs : tokenNeedsRefresh w.lastRefresh w.now = true
    · rcases hR : refreshAccessToken tok c w with ⟨res, c1, w1⟩
      have hcalls : w1.apiCalls = w.apiCalls := by
        rw [← refreshAccessToken_apiCalls tok c w, hR]
      cases res with
      | error err =>
        refine ⟨[], ?_⟩
        rw [requestAux.eq_def]
        dsimp only
        rw [if_pos hs, hR]
        simp [hcalls]
      | ok u =>
        cases u
        rw [requestAux.eq_def]
        dsimp only
        rw [if_pos hs, hR]
        dsimp only
        by_cases h401 : (api w1.apiCalls.length ⟨c1.access_token, m, e, p, w1.tokenCalls⟩).status = 401
        · rw [if_pos h401]
          rcases hR2 : refreshAccessToken tok c1
              { w1 with apiCalls := w1.apiCalls ++ [⟨c1.access_token, m, e, p, w1.tokenCalls⟩] }
            with ⟨res2, c2, w3⟩
          have hcalls2 : w3.apiCalls
              = w1.apiCalls ++ [⟨c1.access_token, m, e, p, w1.tokenCalls⟩] := by
            have h := refreshAccessToken_apiCalls tok c1
              { w1 with apiCalls := w1.apiCalls ++ [⟨c1.access_token, m, e, p, w1.tokenCalls⟩] }
            rw [hR2] at h
            simpa using h
          cases res2 with
          | error err2 =>
            refine ⟨[⟨c1.access_token, m, e, p, w1.tokenCalls⟩], ?_⟩
            simp [hcalls2, hcalls]
          | ok u2 =>
            cases u2
            obtain ⟨l, hl⟩ := ih c2 w3
            refine ⟨[⟨c1.access_token, m, e, p, w1.tokenCalls⟩] ++ l, ?_⟩
            simp [hl, hcalls2, hcalls]
        · rw [if_neg h401]
          refine ⟨[⟨c1.access_token, m, e, p, w1.tokenCalls⟩], ?_⟩
          split <;> (try split) <;> simp_all
    · rw [requestAux.eq_def]
      dsimp only
      rw [if_neg hs]
      dsimp only
      by_cases h401 : (api w.apiCalls.length ⟨c.access_token, m, e, p, w.tokenCalls⟩).status = 401
      · rw [if_pos h401]
        rcases hR2 : refreshAccessToken tok c
            { w with apiCalls := w.apiCalls ++ [⟨c.access_token, m, e, p, w.tokenCalls⟩] }
          with ⟨res2, c2, w3⟩
        have hcalls2 : w3.apiCalls
            = w.apiCalls ++ [⟨c.access_token, m, e, p, w.tokenCalls⟩] := by
          have h := refreshAccessToken_apiCalls tok c
            { w with apiCalls := w.apiCalls ++ [⟨c.access_token, m, e, p, w.tokenCalls⟩] }
          rw [hR2] at h
          simpa using h
        cases res2 with
        | error err2 =>
          refine ⟨[⟨c.access_token, m, e, p, w.tokenCalls⟩], ?_⟩
          simp [hcalls2]
        | ok u2 =>
          cases u2
          obtain ⟨l, hl⟩ := ih c2 w3
          refine ⟨[⟨c.access_token, m, e, p, w.tokenCalls⟩] ++ l, ?_⟩
          simp [hl, hcalls2]
      · rw [if_neg h401]
        refine ⟨[⟨c.access_token, m, e, p, w.tokenCalls⟩], ?_⟩
        split <;> (try split) <;> simp_all

/-- `getElem?` of the first element after a known prefix. -/
theorem getElem_append_singleton {α : Type} (l : List α) (a : α) (l' : List α) :
    (l ++ ([a] ++ l'))[l.length]? = some a := by
  rw [List.getElem?_append_right (Nat.le_refl l.length)]
  simp

/-- With a fresh token, the first API call a `_request` run sends uses the
client's current access token and is preceded by no refresh exchange. -/
theorem requestAux_firstCall_fresh (tok : Nat → TokenResponse)
    (api : Nat → ApiCall → ApiResponse) (m e : String) (p : Option Params)
    (rl : Nat) (c : Client) (w : World)
    (hs : tokenNeedsRefresh w.lastRefresh w.now = false) :
    ((requestAux tok api m e p rl c w).2.2).apiCalls[w.apiCalls.length]? =
      some ⟨c.access_token, m, e, p, w.tokenCalls⟩ := by
  have hs' : ¬ tokenNeedsRefresh w.lastRefresh w.now = true := by simp [hs]
  cases rl with
  | zero =>
    simp only [requestAux]
    rw [if_neg hs']
    dsimp only
    split <;> (try split) <;> simp
  | succ r =>
    rw [requestAux.eq_def]
    dsimp only
    rw [if_neg hs']
    dsimp only
    by_cases h401 : (api w.apiCalls.length ⟨c.access_token, m, e, p, w.tokenCalls⟩).status = 401
    · rw [if_pos h401]
      rcases hR2 : refreshAccessToken tok c
          { w with apiCalls := w.apiCalls ++ [⟨c.access_token, m, e, p, w.tokenCalls⟩] }
        with ⟨res2, c2, w3⟩
      have hcalls2 : w3.apiCalls
          = w.apiCalls ++ [⟨c.access_token, m, e, p, w.tokenCalls⟩] := by
        have h := refreshAccessToken_apiCalls tok c
          { w with apiCalls := w.apiCalls ++ [⟨c.access_token, m, e, p, w.tokenCalls⟩] }
        rw [hR2] at h
        simpa using h
      cases res2 with
      | error err2 =>
        simp [hcalls2]
      | ok u2 =>
        cases u2
        obtain ⟨l, hl⟩ := requestAux_apiCalls_extends tok api m e p r c2 w3
        dsimp only
        rw [hl, hcalls2, List.append_assoc]
        exact getElem_append_singleton w.apiCalls _ l
    · rw [if_neg h401]
      split <;> (try split) <;> simp



/-- With a stale token (and a refresh that the upstream accepts), the first
API call a `_request` run sends uses the access token of the refresh
exchange performed right before it. -/
theorem requestAux_firstCall_stale (tok : Nat → TokenResponse)
    (api : Nat → ApiCall → ApiResponse) (m e : String) (p : Option Params)
    (rl : Nat) (c : Client) (w : World)
    (hs : tokenNeedsRefresh w.lastRefresh w.now = true)
    (hrt : truthyOptStr c.refresh_token = true)
    (h200 : (tok w.tokenCalls).status = 200) :
    ((requestAux tok api m e p rl c w).2.2).apiCalls[w.apiCalls.length]? =
      some ⟨some (tok w.tokenCalls).access_token, m, e, p, w.tokenCalls + 1⟩ := by
  have hOK := refreshAccessToken_ok tok c w hrt h200
  cases rl with
  | zero =>
    simp only [requestAux]
    rw [if_pos hs, hOK]
    dsimp only [refreshedClient, refreshedWorld]
    split <;> (try split) <;> simp
  | succ r =>
    rw [requestAux.eq_def]
    dsimp only
    rw [if_pos hs, hOK]
    dsimp only [refreshedClient, refreshedWorld]
    by_cases h401 : (api w.apiCalls.length
        ⟨some (tok w.tokenCalls).access_token, m, e, p, w.tokenCalls + 1⟩).status = 401
    · rw [if_pos h401]
      split
      · rename_i err2 c2 w3 heq
        have h := congrArg (fun x => (x.2.2).apiCalls) heq
        simp only [] at h
        rw [refreshAccessToken_apiCalls] at h
        simp only [] at h
        dsimp only
        rw [← h]
        simp
      · rename_i c2 w3 heq
        have h := congrArg (fun x => (x.2.2).apiCalls) heq
        simp only [] at h
        rw [refreshAccessToken_apiCalls] at h
        simp only [] at h
        obtain ⟨l, hl⟩ := requestAux_apiCalls_extends tok api m e p r c2 w3
        rw [hl, ← h, List.append_assoc]
        exact getElem_append_singleton w.apiCalls _ l
    · rw [if_neg h401]
      split <;> (try split) <;> simp

/-- Running a concatenated schedule runs the two parts in turn. -/
theorem concRun_append (tok : Nat → TokenResponse) (st : ConcState) (s1 s2 : List Nat) :
    concRun tok st (s1 ++ s2) = concRun tok (concRun tok st s1) s2 :=
  List.foldl_append _ _ _ _

/-- Setting the element right after a prefix. -/
theorem set_append_cons {α : Type} (l : List α) (x y : α) (r : List α) :
    (l ++ x :: r).set l.length y = l ++ y :: r := by
  induction l with
  | nil => rfl
  | cons a as ih => simp

/-- Reading the element right after a prefix. -/
theorem getElem_append_cons {α : Type} (l : List α) (x : α) (r : List α) :
    (l ++ x :: r)[l.length]? = some x := by
  rw [List.getElem?_append_right (Nat.le_refl _)]
  simp

/-- Peeling the head off a map over an offset range. -/
theorem range_map_peel {α : Type} (g : Nat → α) (n m : Nat) :
    (List.range (m + 1)).map (fun i => g (n + i)) =
      g n :: (List.range m).map (fun i => g (n + 1 + i)) := by
  rw [List.range_succ_eq_map, List.map_cons, List.map_map]
  have h1 : n + 0 = n := Nat.add_zero n
  rw [h1]
  have h2 : ((fun i => g (n + i)) ∘ Nat.succ) = fun i => g (n + 1 + i) := by
    funext i
    show g (n + Nat.succ i) = g (n + 1 + i)
    exact congrArg g (by omega)
  rw [h2]

/-- Folding one more refresh peels off the first exchange. -/
theorem refreshFold_succ (tok : Nat → TokenResponse) (base m : Nat) (c : Client) :
    refreshFold tok base (m + 1) c =
      refreshFold tok (base + 1) m (refreshedClient (tok base) c) := by
  unfold refreshFold
  rw [List.range_succ_eq_map, List.foldl_cons, List.foldl_map]
  have harg : (fun (c : Client) (i : Nat) => refreshedClient (tok (base + Nat.succ i)) c)
      = fun (c : Client) (i : Nat) => refreshedClient (tok (base + 1 + i)) c := by
    funext c i
    have : base + Nat.succ i = base + 1 + i := by omega
    rw [this]
  rw [harg]
  have hinit : base + 0 = base := by omega
  rw [hinit]

/-- One scheduled segment followed by the rest of the schedule. -/
theorem concRun_cons (tok : Nat → TokenResponse) (st : ConcState) (j : Nat) (s : List Nat) :
    concRun tok st (j :: s) = concRun tok (concStep tok st j) s := rfl

/-- One atomic segment of a stale task at entry: the staleness check passes and the task issues its own refresh exchange before suspending. -/
theorem concStep_entry_stale (tok : Nat → TokenResponse) (st : ConcState)
    (pre : List TaskPhase) (r : List TaskPhase)
    (hts : st.tasks = pre ++ .entry :: r)
    (hst : tokenNeedsRefresh st.lastRefresh st.now = true)
    (htr : truthyOptStr st.client.refresh_token = true) :
    concStep tok st pre.length =
      { st with
          tokenCalls := st.tokenCalls + 1
          tasks := pre ++ .awaitingToken st.tokenCalls :: r } := by
  have hget : st.tasks[pre.length]? = some .entry := by
    rw [hts]; exact getElem_append_cons pre _ _
  simp only [concStep, hget]
  rw [if_pos hst, htr]
  simp only [Bool.not_true, Bool.false_eq_true, if_false]
  rw [hts, set_append_cons]

/-- One atomic segment of a task whose refresh response arrives: it installs the tokens, records the global refresh time and issues its API call. -/
theorem concStep_token (tok : Nat → TokenResponse) (st : ConcState)
    (pre : List TaskPhase) (r : List TaskPhase) (idx : Nat)
    (hts : st.tasks = pre ++ .awaitingToken idx :: r)
    (h200 : (tok idx).status = 200) :
    concStep tok st pre.length =
      { st with
          client := refreshedClient (tok idx) st.client
          lastRefresh := some st.now
          apiTokens := st.apiTokens ++ [some (tok idx).access_token]
          tasks := pre ++ .awaitingApi :: r } := by
  have hget : st.tasks[pre.length]? = some (.awaitingToken idx) := by
    rw [hts]; exact getElem_append_cons pre _ _
  simp only [concStep, hget]
  rw [h200]
  simp only [ne_eq, not_true_eq_false, Bool.false_eq_true, if_false]
  rw [hts, set_append_cons]
  simp [refreshedClient]

/-- One atomic segment of a task whose API response arrives: it completes. -/
theorem concStep_awaitingApi (tok : Nat → TokenResponse) (st : ConcState)
    (pre : List TaskPhase) (r : List TaskPhase)
    (hts : st.tasks = pre ++ .awaitingApi :: r) :
    concStep tok st pre.length = { st with tasks := pre ++ .finished :: r } := by
  have hget : st.tasks[pre.length]? = some .awaitingApi := by
    rw [hts]; exact getElem_append_cons pre _ _
  simp only [concStep, hget]
  rw [hts, set_append_cons]

/-- One atomic segment of a fresh task at entry: no refresh, the API call goes out with the shared current token. -/
theorem concStep_entry_fresh (tok : Nat → TokenResponse) (st : ConcState)
    (pre : List TaskPhase) (r : List TaskPhase)
    (hts : st.tasks = pre ++ .entry :: r)
    (hfr : tokenNeedsRefresh st.lastRefresh st.now = false) :
    concStep tok st pre.length =
      { st with
          apiTokens := st.apiTokens ++ [st.client.access_token]
          tasks := pre ++ .awaitingApi :: r } := by
  have hget : st.tasks[pre.length]? = some .entry := by
    rw [hts]; exact getElem_append_cons pre _ _
  simp only [concStep, hget]
  rw [hfr]
  simp only [Bool.false_eq_true, if_false]
  rw [hts, set_append_cons]

/-- Unfolding one pair of a pair schedule. -/
theorem pairSched_succ (start m : Nat) :
    pairSched start (m + 1) = start :: start :: pairSched (start + 1) m := by
  simp [pairSched, List.range'_succ]

/-- `m` consecutive stale entry segments issue `m` distinct refresh exchanges, one per task. -/
theorem concRun_entries (tok : Nat → TokenResponse) :
    ∀ (m : Nat) (pre : List TaskPhase) (st : ConcState),
      st.tasks = pre ++ List.replicate m .entry →
      tokenNeedsRefresh st.lastRefresh st.now = true →
      truthyOptStr st.client.refresh_token = true →
      concRun tok st (List.range' pre.length m) =
        { st with
            tokenCalls := st.tokenCalls + m
            tasks := pre ++ (List.range m).map
              (fun i => TaskPhase.awaitingToken (st.tokenCalls + i)) } := by
  intro m
  induction m with
  | zero =>
    intro pre st hts hst htr
    rw [List.range'_zero]
    show st = _
    cases st
    simp_all [concRun]
  | succ m ih =>
    intro pre st hts hst htr
    rw [List.range'_succ, concRun_cons]
    rw [List.replicate_succ] at hts
    have hget : st.tasks[pre.length]? = some .entry := by
      rw [hts]; exact getElem_append_cons pre _ _
    have hstep : concStep tok st pre.length =
        { st with
            tokenCalls := st.tokenCalls + 1
            tasks := pre ++ .awaitingToken st.tokenCalls :: List.replicate m .entry } := by
      simp only [concStep, hget]
      rw [if_pos hst, htr]
      simp only [Bool.not_true, Bool.false_eq_true, if_false]
      rw [hts, set_append_cons]
    rw [hstep]
    have hih := ih (pre ++ [.awaitingToken st.tokenCalls])
      { st with tokenCalls := st.tokenCalls + 1
                tasks := pre ++ .awaitingToken st.tokenCalls :: List.replicate m .entry }
      (by simp) hst htr
    simp only [List.length_append, List.length_cons, List.length_nil, Nat.zero_add] at hih
    rw [hih, range_map_peel]
    simp [List.append_assoc]
    omega

/-- `m` tasks awaiting distinct refresh exchanges each consume their own exchange's response and send their API call with its token. -/
theorem concRun_token_pairs (tok : Nat → TokenResponse)
    (h200 : ∀ n, (tok n).status = 200) :
    ∀ (m base : Nat) (pre : List TaskPhase) (st : ConcState),
      st.tasks = pre ++ (List.range m).map (fun i => TaskPhase.awaitingToken (base + i)) →
      concRun tok st (pairSched pre.length m) =
        { st with
            client := refreshFold tok base m st.client
            lastRefresh := if m = 0 then st.lastRefresh else some st.now
            apiTokens := st.apiTokens
              ++ (List.range m).map (fun i => some (tok (base + i)).access_token)
            tasks := pre ++ List.replicate m .finished } := by
  intro m
  induction m with
  | zero =>
    intro base pre st hts
    show st = _
    cases st
    simp_all [refreshFold, concRun, pairSched]
  | succ m ih =>
    intro base pre st hts
    rw [pairSched_succ, concRun_cons, concRun_cons]
    rw [range_map_peel] at hts
    rw [concStep_token tok st pre _ base hts (h200 base)]
    rw [concStep_awaitingApi tok _ pre _ rfl]
    have hih := ih (base + 1) (pre ++ [.finished])
      { st with
          client := refreshedClient (tok base) st.client
          lastRefresh := some st.now
          apiTokens := st.apiTokens ++ [some (tok base).access_token]
          tasks := pre ++ .finished ::
            (List.range m).map (fun i => TaskPhase.awaitingToken (base + 1 + i)) }
      (by simp)
    simp only [List.length_append, List.length_cons, List.length_nil, Nat.zero_add] at hih
    rw [hih, ← refreshFold_succ,
        range_map_peel (fun x => some (tok x).access_token) base m]
    simp [List.append_assoc]
    rw [List.replicate_succ]

/-- `m` fresh tasks complete without any refresh exchange, all sending the shared client's current token. -/
theorem concRun_fresh_pairs (tok : Nat → TokenResponse) :
    ∀ (m : Nat) (pre : List TaskPhase) (st : ConcState),
      st.tasks = pre ++ List.replicate m .entry →
      tokenNeedsRefresh st.lastRefresh st.now = false →
      concRun tok st (pairSched pre.length m) =
        { st with
            apiTokens := st.apiTokens ++ List.replicate m st.client.access_token
            tasks := pre ++ List.replicate m .finished } := by
  intro m
  induction m with
  | zero =>
    intro pre st hts hfr
    show st = _
    cases st
    simp_all [concRun, pairSched]
  | succ m ih =>
    intro pre st hts hfr
    rw [pairSched_succ, concRun_cons, concRun_cons]
    rw [List.replicate_succ] at hts
    rw [concStep_entry_fresh tok st pre _ hts hfr]
    rw [concStep_awaitingApi tok _ pre _ rfl]
    have hih := ih (pre ++ [.finished])
      { st with
          apiTokens := st.apiTokens ++ [st.client.access_token]
          tasks := pre ++ .finished :: List.replicate m .entry }
      (by simp) hfr
    simp only [List.length_append, List.length_cons, List.length_nil, Nat.zero_add] at hih
    rw [hih]
    simp [List.append_assoc, List.replicate_succ]

/-- C7: a pagination call with `limit = 0` returns the empty sequence and issues no HTTP request (client and world are returned unchanged: no API call and no refresh exchange is recorded). -/
theorem c7_paginate_limit_zero (tok : Nat → TokenResponse)
    (api : Nat → ApiCall → ApiResponse) (endpoint : String) (maxPerPage : Nat)
    (c : Client) (w : World) :
    paginatedRequest tok api endpoint 0 maxPerPage c w = some (.ok [], c, w) := rfl

/-- C8: constructing a client fails with `WhoopAuthError` (before any request can be made) whenever the environment yields no truthy access token; consequently every successfully constructed client holds a non-empty access token. -/
theorem c8_init_fails_without_access_token :
    (∀ env : Env, truthyOptStr env.whoop_access_token = false →
      whoopClientInit env = .error (.authError
        "No access token found. Run 'uv run python scripts/get_tokens.py' first.")) ∧
    (∀ (env : Env) (c : Client), whoopClientInit env = .ok c →
      ∃ a, c.access_token = some a ∧ a ≠ "") := by
  constructor
  · intro env h
    simp [whoopClientInit, h]
  · intro env c h
    rcases htv : env.whoop_access_token with _ | a
    · simp [whoopClientInit, truthyOptStr, htv] at h
    · by_cases he : a = ""
      · subst he
        simp [whoopClientInit, truthyOptStr, htv, String.isEmpty_iff] at h
      · refine ⟨a, ?_, he⟩
        have hie : a.isEmpty = false := by
          cases hie : a.isEmpty
          · rfl
          · exact absurd ((String.isEmpty_iff a).mp hie) he
        have ht : truthyOptStr env.whoop_access_token = true := by
          rw [htv]
          simp [truthyOptStr, hie]
        simp only [whoopClientInit, ht, Bool.not_true, Bool.false_eq_true,
          if_false] at h
        cases h
        exact htv

/-- C1 counterexample: two concurrent requests against a client whose token is stale, run to completion under the interleaved schedule, perform 2 refresh exchanges against the token endpoint, not exactly one. -/
theorem c1_counterexample :
    (concRun tokOK concInit2 [0, 1, 0, 1, 0, 1]).tokenCalls = 2 ∧
    (concRun tokOK concInit2 [0, 1, 0, 1, 0, 1]).tasks
      = [TaskPhase.finished, TaskPhase.finished] := by
  decide

/-- C1 amended: there is no single-flight guard. For every K >= 2 concurrent
requests sharing one client whose token is stale (against a token endpoint
that accepts every exchange): under the interleaved schedule, where every
request runs its staleness check before any refresh exchange completes, each
of the K requests performs its own refresh exchange - K exchanges in total,
each request proceeding with its own exchange's token - and under the
sequential schedule, where the K-1 later requests run only after the first
request's refresh completed, exactly one exchange is performed and every
later request proceeds with that one refresh's token. -/
theorem c1_no_single_flight (K : Nat) (hK : 2 ≤ K) (tok : Nat → TokenResponse)
    (c : Client) (lr : Option Int) (now : Int) (n0 : Nat)
    (htr : truthyOptStr c.refresh_token = true)
    (hst : tokenNeedsRefresh lr now = true)
    (h200 : ∀ n, (tok n).status = 200) :
    ((concRun tok (concInitK K c lr now n0) (c1Interleaved K)).tokenCalls = n0 + K ∧
     (concRun tok (concInitK K c lr now n0) (c1Interleaved K)).tasks
       = List.replicate K .finished ∧
     (concRun tok (concInitK K c lr now n0) (c1Interleaved K)).apiTokens
       = (List.range K).map (fun i => some (tok (n0 + i)).access_token)) ∧
    ((concRun tok (concInitK K c lr now n0) (c1Sequential K)).tokenCalls = n0 + 1 ∧
     (concRun tok (concInitK K c lr now n0) (c1Sequential K)).tasks
       = List.replicate K .finished ∧
     (concRun tok (concInitK K c lr now n0) (c1Sequential K)).apiTokens
       = List.replicate K (some (tok n0).access_token)) := by
  constructor
  · have hA := concRun_entries tok K []
      (⟨c, lr, now, n0, [], List.replicate K .entry⟩ : ConcState) rfl hst htr
    dsimp only at hA
    simp only [List.length_nil, List.nil_append] at hA
    have hBC := concRun_token_pairs tok h200 K n0 []
      (⟨c, lr, now, n0 + K, [],
        (List.range K).map (fun i => TaskPhase.awaitingToken (n0 + i))⟩ : ConcState) rfl
    dsimp only at hBC
    simp only [List.length_nil, List.nil_append] at hBC
    rw [show concInitK K c lr now n0
        = (⟨c, lr, now, n0, [], List.replicate K .entry⟩ : ConcState) from rfl,
      c1Interleaved, concRun_append, List.range_eq_range', hA, hBC]
    refine ⟨rfl, rfl, ?_⟩
    rw [← List.range_eq_range']
  · obtain ⟨k, rfl⟩ : ∃ k, K = k + 1 := ⟨K - 1, by omega⟩
    have e0 : concInitK (k + 1) c lr now n0
        = (⟨c, lr, now, n0, [], .entry :: List.replicate k .entry⟩ : ConcState) := by
      simp [concInitK, List.replicate_succ]
    have hsched : c1Sequential (k + 1) = 0 :: 0 :: 0 :: pairSched 1 k := by
      simp [c1Sequential]
    rw [e0, hsched, concRun_cons, concRun_cons, concRun_cons]
    have e1 := concStep_entry_stale tok
      (⟨c, lr, now, n0, [], .entry :: List.replicate k .entry⟩ : ConcState)
      [] (List.replicate k .entry) rfl hst htr
    dsimp only at e1
    simp only [List.length_nil, List.nil_append] at e1
    rw [e1]
    have e2 := concStep_token tok
      (⟨c, lr, now, n0 + 1, [], .awaitingToken n0 :: List.replicate k .entry⟩ : ConcState)
      [] (List.replicate k .entry) n0 rfl (h200 n0)
    dsimp only at e2
    simp only [List.length_nil, List.nil_append] at e2
    rw [e2]
    have e3 := concStep_awaitingApi tok
      (⟨refreshedClient (tok n0) c, some now, now, n0 + 1, [some (tok n0).access_token],
        .awaitingApi :: List.replicate k .entry⟩ : ConcState)
      [] (List.replicate k .entry) rfl
    dsimp only at e3
    simp only [List.length_nil, List.nil_append] at e3
    rw [e3]
    have e4 := concRun_fresh_pairs tok k [.finished]
      (⟨refreshedClient (tok n0) c, some now, now, n0 + 1, [some (tok n0).access_token],
        .finished :: List.replicate k .entry⟩ : ConcState)
      rfl (tokenNeedsRefresh_some_self now)
    dsimp only at e4
    simp only [List.length_append, List.length_cons, List.length_nil, Nat.zero_add] at e4
    rw [e4]
    refine ⟨rfl, ?_, ?_⟩
    · simp [List.replicate_succ]
    · simp [refreshedClient, List.replicate_succ]

/-- Witness for C1: the amended behavior at K = 2 with concrete client,
state and oracle. -/
theorem c1_witness :
    ((concRun tokOK (concInitK 2 cInit none 0 0) (c1Interleaved 2)).tokenCalls = 0 + 2 ∧
     (concRun tokOK (concInitK 2 cInit none 0 0) (c1Interleaved 2)).tasks
       = List.replicate 2 .finished ∧
     (concRun tokOK (concInitK 2 cInit none 0 0) (c1Interleaved 2)).apiTokens
       = (List.range 2).map (fun i => some (tokOK (0 + i)).access_token)) ∧
    ((concRun tokOK (concInitK 2 cInit none 0 0) (c1Sequential 2)).tokenCalls = 0 + 1 ∧
     (concRun tokOK (concInitK 2 cInit none 0 0) (c1Sequential 2)).tasks
       = List.replicate 2 .finished ∧
     (concRun tokOK (concInitK 2 cInit none 0 0) (c1Sequential 2)).apiTokens
       = List.replicate 2 (some (tokOK 0).access_token)) :=
  c1_no_single_flight 2 (by decide) tokOK cInit none 0 0 (by decide) (by decide)
    (fun _ => rfl)

/-- C3 counterexample: a 429 response makes the request fail with `WhoopAPIError` (the generic API error class), not with a distinct rate-limit error type; no such type exists in the code. -/
theorem c3_counterexample :
    (request tokOK api429 "GET" "/v2/recovery" none true cInit wFresh).1
      = .error (.apiError "Rate limit exceeded. Try again later.") ∧
    WhoopError.isApiError (.apiError "Rate limit exceeded. Try again later.") = true := by
  decide

/-- C3 amended: a 429 response (with a fresh token) fails the request with `WhoopAPIError(\"Rate limit exceeded. Try again later.\")` - the same exception class as generic API errors, distinguished only by message - and the 429 triggers no refresh exchange and no retry: exactly one API call is recorded and the token-exchange count is unchanged. -/
theorem c3_rate_limit_behavior (tok : Nat → TokenResponse)
    (api : Nat → ApiCall → ApiResponse) (m e : String) (p : Option Params)
    (retry : Bool) (c : Client) (w : World)
    (hfresh : tokenNeedsRefresh w.lastRefresh w.now = false)
    (h429 : (api w.apiCalls.length ⟨c.access_token, m, e, p, w.tokenCalls⟩).status = 429) :
    request tok api m e p retry c w =
      (.error (.apiError "Rate limit exceeded. Try again later."), c,
       { w with apiCalls := w.apiCalls ++ [⟨c.access_token, m, e, p, w.tokenCalls⟩] }) := by
  have hfresh' : ¬ tokenNeedsRefresh w.lastRefresh w.now = true := by simp [hfresh]
  have h401 : ¬ (api w.apiCalls.length
      ⟨c.access_token, m, e, p, w.tokenCalls⟩).status = 401 := by
    rw [h429]; decide
  cases retry
  case false =>
    show requestAux tok api m e p 0 c w = _
    simp only [requestAux]
    rw [if_neg hfresh']
    dsimp only
    rw [if_pos h429]
  case true =>
    show requestAux tok api m e p 1 c w = _
    rw [requestAux.eq_def]
    dsimp only
    rw [if_neg hfresh']
    dsimp only
    rw [if_neg h401, if_pos h429]

/-- Witness for C3: the amended behavior at a concrete client, world and oracles. -/
theorem c3_witness :
    request tokOK api429 "GET" "/v2/recovery" none true cInit wFresh =
      (.error (.apiError "Rate limit exceeded. Try again later."), cInit,
       { wFresh with apiCalls := wFresh.apiCalls ++
           [⟨cInit.access_token, "GET", "/v2/recovery", none, wFresh.tokenCalls⟩] }) :=
  c3_rate_limit_behavior tokOK api429 "GET" "/v2/recovery" none true cInit wFresh
    (by decide) (by decide)

/-- Witness for C8: the two halves at concrete environments. -/
theorem c8_witness :
    whoopClientInit envNoAccess = .error (.authError
      "No access token found. Run 'uv run python scripts/get_tokens.py' first.") ∧
    (∃ a, cInit.access_token = some a ∧ a ≠ "") :=
  ⟨c8_init_fails_without_access_token.1 envNoAccess (by decide),
   c8_init_fails_without_access_token.2 envInit cInit (by decide)⟩

/-- C6: on a successful refresh, when the upstream response omits a refresh token the stored one is left unchanged and stays truthy (so the next refresh passes its no-refresh-token guard); when the response carries one, it replaces the stored token. -/
theorem c6_refresh_token_rotation (tok : Nat → TokenResponse) (c : Client) (w : World)
    (hrt : truthyOptStr c.refresh_token = true)
    (h200 : (tok w.tokenCalls).status = 200) :
    (refreshAccessToken tok c w).1 = .ok () ∧
    ((tok w.tokenCalls).refresh_token = none →
      ((refreshAccessToken tok c w).2.1).refresh_token = c.refresh_token ∧
      truthyOptStr ((refreshAccessToken tok c w).2.1).refresh_token = true) ∧
    (∀ r, (tok w.tokenCalls).refresh_token = some r →
      ((refreshAccessToken tok c w).2.1).refresh_token = some r) := by
  have hOK := refreshAccessToken_ok tok c w hrt h200
  rw [hOK]
  refine ⟨rfl, ?_, ?_⟩
  · intro hnone
    constructor
    · simp [refreshedClient, rotatedRefreshToken, hnone]
    · simp [refreshedClient, rotatedRefreshToken, hnone, hrt]
  · intro r hr
    simp [refreshedClient, rotatedRefreshToken, hr]

/-- Witness for C6: rotation behavior at concrete oracles - an omitting response keeps `"R"`, a carrying response installs `"U0"`. -/
theorem c6_witness :
    ((refreshAccessToken tokNoRotate cInit wFresh).2.1).refresh_token = some "R" ∧
    ((refreshAccessToken tokOK cInit wFresh).2.1).refresh_token = some "U0" :=
  ⟨((c6_refresh_token_rotation tokNoRotate cInit wFresh (by decide) (by decide)).2.1
      (by decide)).1.trans (by decide),
   (c6_refresh_token_rotation tokOK cInit wFresh (by decide) (by decide)).2.2
      "U0" (by decide)⟩

/-- C10: a successful refresh by any client instance updates the module-global `_last_token_refresh` (held in `World`, not in `Client`) and writes both tokens into the process environment, so a client constructed afterwards from that environment starts with the refreshed tokens, and the staleness check stays false for the rest of the 55-minute window. -/
theorem c10_shared_refresh_state (tok : Nat → TokenResponse) (c : Client) (w : World)
    (hrt : truthyOptStr c.refresh_token = true)
    (h200 : (tok w.tokenCalls).status = 200)
    (hne : (tok w.tokenCalls).access_token ≠ "") :
    (refreshAccessToken tok c w).1 = .ok () ∧
    ((refreshAccessToken tok c w).2.2).lastRefresh = some w.now ∧
    ((refreshAccessToken tok c w).2.2).env.whoop_access_token
      = some (tok w.tokenCalls).access_token ∧
    ((refreshAccessToken tok c w).2.2).env.whoop_refresh_token
      = ((refreshAccessToken tok c w).2.1).refresh_token ∧
    whoopClientInit ((refreshAccessToken tok c w).2.2).env
      = .ok { client_id := w.env.whoop_client_id
              client_secret := w.env.whoop_client_secret
              access_token := some (tok w.tokenCalls).access_token
              refresh_token := rotatedRefreshToken (tok w.tokenCalls) c.refresh_token } ∧
    (∀ now' : Int, now' - w.now ≤ TOKEN_LIFETIME_MINUTES * 60 →
      tokenNeedsRefresh ((refreshAccessToken tok c w).2.2).lastRefresh now' = false) := by
  have hOK := refreshAccessToken_ok tok c w hrt h200
  rw [hOK]
  have hie : (tok w.tokenCalls).access_token.isEmpty = false := by
    cases hie : (tok w.tokenCalls).access_token.isEmpty
    · rfl
    · exact absurd ((String.isEmpty_iff _).mp hie) hne
  refine ⟨rfl, rfl, rfl, rfl, ?_, ?_⟩
  · simp [whoopClientInit, refreshedWorld, refreshedClient, truthyOptStr, hie]
  · intro now' hle
    simp only [refreshedWorld]
    simp only [tokenNeedsRefresh, TOKEN_LIFETIME_MINUTES,
      decide_eq_false_iff_not, not_lt] at hle ⊢
    omega

/-- Witness for C10: the shared timestamp at a concrete refresh, still fresh 3300 seconds later. -/
theorem c10_witness :
    ((refreshAccessToken tokOK cInit wStale).2.2).lastRefresh = some 0 ∧
    tokenNeedsRefresh ((refreshAccessToken tokOK cInit wStale).2.2).lastRefresh 3300
      = false :=
  ⟨(c10_shared_refresh_state tokOK cInit wStale (by decide) (by decide) (by decide)).2.1,
   (c10_shared_refresh_state tokOK cInit wStale (by decide) (by decide)
      (by decide)).2.2.2.2.2 3300 (by decide)⟩

/-- C9: the token is stale exactly when never refreshed this session or strictly more than 55 minutes past the last refresh; a stale request performs a refresh before its first API call is sent (the call carries the fresh exchange's token and a refresh count one higher), and a fresh request sends its first API call with the old token and no preceding refresh. -/
theorem c9_staleness_policy :
    TOKEN_LIFETIME_MINUTES = 55 ∧
    (∀ (lastRefresh : Option Int) (now : Int),
      tokenNeedsRefresh lastRefresh now = true ↔
        (lastRefresh = none ∨
         ∃ t, lastRefresh = some t ∧ now - t > TOKEN_LIFETIME_MINUTES * 60)) ∧
    (∀ (tok : Nat → TokenResponse) (api : Nat → ApiCall → ApiResponse)
       (m e : String) (p : Option Params) (retry : Bool) (c : Client) (w : World),
      tokenNeedsRefresh w.lastRefresh w.now = true →
      truthyOptStr c.refresh_token = true →
      (tok w.tokenCalls).status = 200 →
      ((request tok api m e p retry c w).2.2).apiCalls[w.apiCalls.length]? =
        some ⟨some (tok w.tokenCalls).access_token, m, e, p, w.tokenCalls + 1⟩) ∧
    (∀ (tok : Nat → TokenResponse) (api : Nat → ApiCall → ApiResponse)
       (m e : String) (p : Option Params) (retry : Bool) (c : Client) (w : World),
      tokenNeedsRefresh w.lastRefresh w.now = false →
      ((request tok api m e p retry c w).2.2).apiCalls[w.apiCalls.length]? =
        some ⟨c.access_token, m, e, p, w.tokenCalls⟩) := by
  refine ⟨rfl, ?_, ?_, ?_⟩
  · intro lr now
    cases lr with
    | none => simp [tokenNeedsRefresh]
    | some t => simp [tokenNeedsRefresh]
  · intro tok api m e p retry c w hs hrt h200
    exact requestAux_firstCall_stale tok api m e p (if retry then 1 else 0) c w hs hrt h200
  · intro tok api m e p retry c w hs
    exact requestAux_firstCall_fresh tok api m e p (if retry then 1 else 0) c w hs

/-- Witness for C9: the stale and fresh first-call behavior at concrete states. -/
theorem c9_witness :
    ((request tokOK api200 "GET" "/v2/recovery" none true cInit wStale).2.2).apiCalls[wStale.apiCalls.length]? =
      some ⟨some (tokOK wStale.tokenCalls).access_token, "GET", "/v2/recovery", none,
        wStale.tokenCalls + 1⟩ ∧
    ((request tokOK api200 "GET" "/v2/recovery" none true cInit wFresh).2.2).apiCalls[wFresh.apiCalls.length]? =
      some ⟨cInit.access_token, "GET", "/v2/recovery", none, wFresh.tokenCalls⟩ :=
  ⟨c9_staleness_policy.2.2.1 tokOK api200 "GET" "/v2/recovery" none true cInit wStale
      (by decide) (by decide) (by decide),
   c9_staleness_policy.2.2.2 tokOK api200 "GET" "/v2/recovery" none true cInit wFresh
      (by decide)⟩

/-- C2 counterexample: a request answered 401 twice fails with `WhoopAPIError("API error 401: ...")` - the generic API error, not `WhoopAuthError` as the claim states. -/
theorem c2_counterexample :
    (request tokOK apiAll401 "GET" "/v2/recovery" none true cInit wFresh).1
      = .error (.apiError "API error 401: unauthorized") ∧
    WhoopError.isAuthError (.apiError "API error 401: unauthorized") = false := by
  decide

/-- C2 amended: on a first 401 the client performs exactly one reactive refresh and retries exactly once with the retry disabled; the retry's outcome is final: a second 401 fails with the generic `WhoopAPIError("API error 401: ...")` (not `WhoopAuthError`), a 200 succeeds with the retry's body. In both cases the refresh-exchange count rises by exactly one and exactly two API calls go out, the second carrying the refreshed token. -/
theorem c2_retry_once (tok : Nat → TokenResponse) (api : Nat → ApiCall → ApiResponse)
    (m e : String) (p : Option Params) (c : Client) (w : World)
    (hfresh : tokenNeedsRefresh w.lastRefresh w.now = false)
    (hrt : truthyOptStr c.refresh_token = true)
    (htok : (tok w.tokenCalls).status = 200)
    (h401 : (api w.apiCalls.length ⟨c.access_token, m, e, p, w.tokenCalls⟩).status = 401) :
    ((api (w.apiCalls.length + 1)
        ⟨some (tok w.tokenCalls).access_token, m, e, p, w.tokenCalls + 1⟩).status = 401 →
      request tok api m e p true c w =
        (.error (.apiError ("API error 401: " ++ (api (w.apiCalls.length + 1)
            ⟨some (tok w.tokenCalls).access_token, m, e, p, w.tokenCalls + 1⟩).text)),
         refreshedClient (tok w.tokenCalls) c,
         { refreshedWorld (tok w.tokenCalls) c w with
             apiCalls := w.apiCalls ++
               [⟨c.access_token, m, e, p, w.tokenCalls⟩,
                ⟨some (tok w.tokenCalls).access_token, m, e, p, w.tokenCalls + 1⟩] })) ∧
    ((api (w.apiCalls.length + 1)
        ⟨some (tok w.tokenCalls).access_token, m, e, p, w.tokenCalls + 1⟩).status = 200 →
      request tok api m e p true c w =
        (.ok (api (w.apiCalls.length + 1)
            ⟨some (tok w.tokenCalls).access_token, m, e, p, w.tokenCalls + 1⟩).body,
         refreshedClient (tok w.tokenCalls) c,
         { refreshedWorld (tok w.tokenCalls) c w with
             apiCalls := w.apiCalls ++
               [⟨c.access_token, m, e, p, w.tokenCalls⟩,
                ⟨some (tok w.tokenCalls).access_token, m, e, p, w.tokenCalls + 1⟩] })) := by
  have hfresh' : ¬ tokenNeedsRefresh w.lastRefresh w.now = true := by simp [hfresh]
  have hOK2 := refreshAccessToken_ok tok c
    { w with apiCalls := w.apiCalls ++ [⟨c.access_token, m, e, p, w.tokenCalls⟩] } hrt htok
  constructor
  · intro h2
    show requestAux tok api m e p 1 c w = _
    rw [requestAux.eq_def]
    dsimp only
    rw [if_neg hfresh']
    dsimp only
    rw [if_pos h401, hOK2]
    dsimp only [refreshedClient, refreshedWorld]
    simp only [requestAux, tokenNeedsRefresh_some_self, List.length_append,
      List.length_cons, List.length_nil]
    rw [if_neg (by decide : ¬ false = true)]
    dsimp only
    simp only [List.length_append, List.length_cons, List.length_nil, Nat.zero_add]
    rw [h2]
    simp [List.append_assoc]
    rfl
  · intro h2
    show requestAux tok api m e p 1 c w = _
    rw [requestAux.eq_def]
    dsimp only
    rw [if_neg hfresh']
    dsimp only
    rw [if_pos h401, hOK2]
    dsimp only [refreshedClient, refreshedWorld]
    simp only [requestAux, tokenNeedsRefresh_some_self, List.length_append,
      List.length_cons, List.length_nil]
    rw [if_neg (by decide : ¬ false = true)]
    dsimp only
    simp only [List.length_append, List.length_cons, List.length_nil, Nat.zero_add]
    rw [h2]
    simp [List.append_assoc]



/-- Witness for C2: the 401-twice outcome at concrete oracles. -/
theorem c2_witness :
    request tokOK apiAll401 "GET" "/v2/recovery" none true cInit wFresh =
      (.error (.apiError ("API error 401: " ++ (apiAll401 (wFresh.apiCalls.length + 1)
          ⟨some (tokOK wFresh.tokenCalls).access_token, "GET", "/v2/recovery", none,
            wFresh.tokenCalls + 1⟩).text)),
       refreshedClient (tokOK wFresh.tokenCalls) cInit,
       { refreshedWorld (tokOK wFresh.tokenCalls) cInit wFresh with
           apiCalls := wFresh.apiCalls ++
             [⟨cInit.access_token, "GET", "/v2/recovery", none, wFresh.tokenCalls⟩,
              ⟨some (tokOK wFresh.tokenCalls).access_token, "GET", "/v2/recovery", none,
                wFresh.tokenCalls + 1⟩] }) :=
  (c2_retry_once tokOK apiAll401 "GET" "/v2/recovery" none cInit wFresh
    (by decide) (by decide) (by decide) (by decide)).1 (by decide)

/-- `_request` (with its boolean flag) only appends to the API-call trace. -/
theorem request_apiCalls_extends (tok : Nat → TokenResponse)
    (api : Nat → ApiCall → ApiResponse) (m e : String) (p : Option Params)
    (retry : Bool) (c : Client) (w : World) :
    ∃ l, ((request tok api m e p retry c w).2.2).apiCalls = w.apiCalls ++ l :=
  requestAux_apiCalls_extends tok api m e p (if retry then 1 else 0) c w

/-- `request` version of the fresh first-call lemma. -/
theorem request_firstCall_fresh (tok : Nat → TokenResponse)
    (api : Nat → ApiCall → ApiResponse) (m e : String) (p : Option Params)
    (retry : Bool) (c : Client) (w : World)
    (hs : tokenNeedsRefresh w.lastRefresh w.now = false) :
    ((request tok api m e p retry c w).2.2).apiCalls[w.apiCalls.length]? =
      some ⟨c.access_token, m, e, p, w.tokenCalls⟩ :=
  requestAux_firstCall_fresh tok api m e p (if retry then 1 else 0) c w hs

/-- The pagination loop terminates within its fuel whenever the fuel covers `limit - accumulated` plus one final iteration: each continuing iteration appends at least one record. -/
theorem paginatedLoop_isSome (tok : Nat → TokenResponse)
    (api : Nat → ApiCall → ApiResponse) (e : String) (lim mpp : Nat) :
    ∀ (fuel : Nat) (acc : List Nat) (nt : Option String) (c : Client) (w : World),
      lim + 1 ≤ acc.length + fuel → 1 ≤ fuel →
      (paginatedLoop tok api e lim mpp fuel acc nt c w).isSome = true := by
  intro fuel
  induction fuel with
  | zero => intro acc nt c w h1 h2; exact absurd h2 (by omega)
  | succ f ih =>
    intro acc nt c w h1 h2
    rw [paginatedLoop.eq_def]
    dsimp only
    by_cases hlt : acc.length < lim
    · rw [if_pos hlt]
      split
      · rfl
      · split
        · rfl
        · rename_i data c1 w1 heq hcond
          have hne : data.records.isEmpty = false := by
            rcases Bool.or_eq_false_iff.mp (Bool.not_eq_true _ ▸ hcond) with ⟨_, hb⟩
            exact hb
          have hpos : 0 < data.records.length := by
            cases hrec : data.records
            · rw [hrec] at hne; simp at hne
            · simp [hrec]
          apply ih
          · simp only [List.length_append]
            omega
          · omega
    · rw [if_neg hlt]
      rfl



/-- The pagination loop only appends to the API-call trace. -/
theorem paginatedLoop_apiCalls_extends (tok : Nat → TokenResponse)
    (api : Nat → ApiCall → ApiResponse) (e : String) (lim mpp : Nat) :
    ∀ (fuel : Nat) (acc : List Nat) (nt : Option String) (c : Client) (w : World)
      (r : Except WhoopError (List Nat) × Client × World),
      paginatedLoop tok api e lim mpp fuel acc nt c w = some r →
      ∃ l, (r.2.2).apiCalls = w.apiCalls ++ l := by
  intro fuel
  induction fuel with
  | zero => intro acc nt c w r h; simp [paginatedLoop] at h
  | succ f ih =>
    intro acc nt c w r h
    rw [paginatedLoop.eq_def] at h
    dsimp only at h
    by_cases hlt : acc.length < lim
    · rw [if_pos hlt] at h
      split at h
      · rename_i e1 c1 w1 heq
        cases h
        obtain ⟨l, hl⟩ := request_apiCalls_extends tok api "GET" e
          (some ⟨some (min mpp (lim - acc.length)),
            if truthyOptStr nt then nt else none⟩) true c w
        rw [heq] at hl
        exact ⟨l, hl⟩
      · rename_i data c1 w1 heq
        split at h
        · cases h
          obtain ⟨l, hl⟩ := request_apiCalls_extends tok api "GET" e
            (some ⟨some (min mpp (lim - acc.length)),
              if truthyOptStr nt then nt else none⟩) true c w
          rw [heq] at hl
          exact ⟨l, hl⟩
        · obtain ⟨l2, hl2⟩ := ih _ _ _ _ _ h
          obtain ⟨l, hl⟩ := request_apiCalls_extends tok api "GET" e
            (some ⟨some (min mpp (lim - acc.length)),
              if truthyOptStr nt then nt else none⟩) true c w
          rw [heq] at hl
          refine ⟨l ++ l2, ?_⟩
          rw [hl2, hl, List.append_assoc]
    · rw [if_neg hlt] at h
      cases h
      exact ⟨[], by simp⟩



/-- C5: pagination terminates for every oracle and state (fuel `limit + 1` always suffices, so `paginatedRequest` never runs out); whenever a page comes back with zero records - regardless of its cursor - the loop stops and returns the records gathered so far; concretely, a second page with zero records and a non-null cursor ends the run after 2 page requests with the 25 records gathered (fewer than the 62 requested). -/
theorem c5_pagination_termination :
    (∀ (tok : Nat → TokenResponse) (api : Nat → ApiCall → ApiResponse)
       (e : String) (lim mpp : Nat) (c : Client) (w : World),
      (paginatedRequest tok api e lim mpp c w).isSome = true) ∧
    (∀ (tok : Nat → TokenResponse) (api : Nat → ApiCall → ApiResponse)
       (e : String) (lim mpp fuel : Nat) (acc : List Nat) (nt : Option String)
       (c c1 : Client) (w w1 : World) (data : Body),
      acc.length < lim →
      request tok api "GET" e (some ⟨some (min mpp (lim - acc.length)),
          if truthyOptStr nt then nt else none⟩) true c w = (.ok data, c1, w1) →
      data.records = [] →
      paginatedLoop tok api e lim mpp (fuel + 1) acc nt c w
        = some (.ok acc, c1, w1)) ∧
    (paginatedRequest tokOK apiEmptySecondPage "/v2/recovery" 62 25 cInit wFresh).map
        (fun r => (r.1, r.2.2.apiCalls.length))
      = some (.ok (List.range 25), 2) := by
  refine ⟨?_, ?_, ?_⟩
  · intro tok api e lim mpp c w
    exact paginatedLoop_isSome tok api e lim mpp (lim + 1) [] none c w
      (by simp) (by omega)
  · intro tok api e lim mpp fuel acc nt c c1 w w1 data hlt heq hrec
    rw [paginatedLoop.eq_def]
    dsimp only
    rw [if_pos hlt, heq]
    dsimp only
    rw [hrec]
    simp [List.take_of_length_le (Nat.le_of_lt hlt)]
  · decide

/-- Witness for C5: the zero-records-with-cursor stop at a concrete state. -/
theorem c5_witness :
    paginatedLoop tokOK apiEmptySecondPage "/v2/recovery" 62 25 1
      (List.range 25) (some "c0") cInit
      { wFresh with apiCalls := [⟨some "A", "GET", "/v2/recovery",
          some ⟨some 25, none⟩, 0⟩] }
      = some (.ok (List.range 25), cInit,
        { wFresh with apiCalls :=
            [⟨some "A", "GET", "/v2/recovery", some ⟨some 25, none⟩, 0⟩,
             ⟨some "A", "GET", "/v2/recovery", some ⟨some 25,
               if truthyOptStr (some "c0") then some "c0" else none⟩, 0⟩] }) :=
  c5_pagination_termination.2.1 tokOK apiEmptySecondPage "/v2/recovery" 62 25 0
    (List.range 25) (some "c0") cInit cInit
    { wFresh with apiCalls := [⟨some "A", "GET", "/v2/recovery",
        some ⟨some 25, none⟩, 0⟩] }
    { wFresh with apiCalls :=
        [⟨some "A", "GET", "/v2/recovery", some ⟨some 25, none⟩, 0⟩,
         ⟨some "A", "GET", "/v2/recovery", some ⟨some 25,
           if truthyOptStr (some "c0") then some "c0" else none⟩, 0⟩] }
    ⟨[], some "c1"⟩ (by decide) (by decide) rfl



/-- C4: every pagination iteration requests exactly `min(page_size_cap, limit - accumulated)` records (the issued call's `limit` parameter, read off the trace); against an upstream that fills every requested page, `limit=62`, `page_size_cap=25` issues exactly 3 page requests of sizes 25, 25, 12 and returns exactly the 62 records in the order received. -/
theorem c4_page_sizes :
    (∀ (tok : Nat → TokenResponse) (api : Nat → ApiCall → ApiResponse)
       (e : String) (lim mpp fuel : Nat) (acc : List Nat) (nt : Option String)
       (c : Client) (w : World) (r : Except WhoopError (List Nat) × Client × World),
      acc.length < lim →
      tokenNeedsRefresh w.lastRefresh w.now = false →
      paginatedLoop tok api e lim mpp (fuel + 1) acc nt c w = some r →
      (r.2.2).apiCalls[w.apiCalls.length]? =
        some ⟨c.access_token, "GET", e,
          some ⟨some (min mpp (lim - acc.length)),
            if truthyOptStr nt then nt else none⟩, w.tokenCalls⟩) ∧
    (paginatedRequest tokOK apiFull "/v2/recovery" 62 25 cInit wFresh).map
        (fun r => (r.2.2).apiCalls.map (fun a => a.params.bind Params.limit))
      = some [some 25, some 25, some 12] ∧
    (paginatedRequest tokOK apiFull "/v2/recovery" 62 25 cInit wFresh).map
        (fun r => r.1)
      = some (.ok (List.range 25 ++ (List.range 25).map (100 + ·)
          ++ (List.range 12).map (200 + ·))) := by
  refine ⟨?_, ?_, ?_⟩
  · intro tok api e lim mpp fuel acc nt c w r hlt hfresh h
    have hfirst := request_firstCall_fresh tok api "GET" e
      (some ⟨some (min mpp (lim - acc.length)),
        if truthyOptStr nt then nt else none⟩) true c w hfresh
    rw [paginatedLoop.eq_def] at h
    dsimp only at h
    rw [if_pos hlt] at h
    split at h
    · rename_i e1 c1 w1 heq
      cases h
      rw [heq] at hfirst
      exact hfirst
    · rename_i data c1 w1 heq
      split at h
      · cases h
        rw [heq] at hfirst
        exact hfirst
      · rw [heq] at hfirst
        dsimp only at hfirst
        obtain ⟨l2, hl2⟩ := paginatedLoop_apiCalls_extends tok api e lim mpp
          fuel _ _ _ _ _ h
        have hlen : w.apiCalls.length < w1.apiCalls.length :=
          (List.getElem?_eq_some.mp hfirst).1
        rw [hl2, List.getElem?_append, if_pos hlen]
        exact hfirst
  · decide
  · decide



/-- Witness for C4: the per-iteration minimum at a concrete run. -/
theorem c4_witness :
    (((.ok [0], cInit, { wFresh with apiCalls := [⟨some "A", "GET", "/v2/recovery",
          some ⟨some 1, none⟩, 0⟩] }) :
        Except WhoopError (List Nat) × Client × World).2.2).apiCalls[wFresh.apiCalls.length]? =
      some ⟨cInit.access_token, "GET", "/v2/recovery",
        some ⟨some (min 25 (1 - (([] : List Nat)).length)),
          if truthyOptStr none then none else none⟩, wFresh.tokenCalls⟩ :=
  c4_page_sizes.1 tokOK apiFull "/v2/recovery" 1 25 1 [] none cInit wFresh
    (.ok [0], cInit, { wFresh with apiCalls := [⟨some "A", "GET", "/v2/recovery",
        some ⟨some 1, none⟩, 0⟩] })
    (by decide) (by decide) (by decide)

end WhoopMCP
